import Mathlib

/-!
Shallow embedding of `src/kapish.c` (a minimal shell: tokenizer, built-in
classifier, dispatcher, line source, startup pass and session loop), with
theorems settling the specification claims about it.

C strings are modelled as `List Char` (the characters before the NUL
terminator; a well-formed C string contains no NUL). A `char **` token
vector is modelled as `List (List Char)` (the entries before the first NULL
pointer); `tokens[i] == NULL` corresponds to `tokens.get? i = none`.
-/

/-- A C string: the characters before the terminating NUL. -/
abbrev CStr := List Char

/-- The delimiter set `" \n"` passed to `strtok` in `tokenize`. -/
def isDelim (c : Char) : Bool := c = ' ' || c = '\n'

/-- The scanning loop of `tokenize` (`strtok(command, " \n")` repeated):
a left-to-right scan over the line; `acc = none` while between tokens,
`acc = some t` while inside a token whose characters read so far are `t`
in reverse order. Produces the maximal runs of non-delimiter characters. -/
def tokenize_go : Option (List Char) → CStr → List CStr
  | none, [] => []
  | some acc, [] => [acc.reverse]
  | none, c :: cs =>
    if isDelim c then tokenize_go none cs else tokenize_go (some [c]) cs
  | some acc, c :: cs =>
    if isDelim c then acc.reverse :: tokenize_go none cs
    else tokenize_go (some (c :: acc)) cs

/-- `tokenize`: split one line on runs of `' '` and `'\n'`
(kapish.c lines 41-64). The C function writes token `i` into a 64-entry
array `tokens[token_i]` with no bound check; the token list returned here
is the sequence of writes it performs, in order. -/
def tokenize (command : CStr) : List CStr := tokenize_go none command

/-- `TOKENS_SIZE`: the fixed capacity of the token array in `tokenize`. -/
def TOKENS_SIZE : Nat := 64

/-- The token array `tokenize` returns, as the C caller sees it: the array
is zeroed by `memset`, then entries `0..n-1` are the tokens. Faithful to
the C layout whenever `n ≤ TOKENS_SIZE` (beyond that the C writes are out
of bounds and no array contents are defined). -/
def tokens_array (command : CStr) : List (Option CStr) :=
  (tokenize command).map some ++
    List.replicate (TOKENS_SIZE - (tokenize command).length) none

/-- C `strncmp` on NUL-terminated strings: compare at most `n` characters,
stopping at the first difference or at the terminator of both strings.
The terminator of a shorter string participates in the comparison. -/
def strncmp : CStr → CStr → Nat → Int
  | _, _, 0 => 0
  | [], [], _ + 1 => 0
  | [], c2 :: _, _ + 1 => 0 - (c2.toNat : Int)
  | c1 :: _, [], _ + 1 => (c1.toNat : Int)
  | c1 :: s1, c2 :: s2, n + 1 =>
    if c1 = c2 then strncmp s1 s2 n else (c1.toNat : Int) - (c2.toNat : Int)

/-- `cmd_type`: the command-kind enumeration of kapish.c. -/
inductive cmd_type where
  | EXTERNAL_CMD
  | SETENV
  | UNSETENV
  | CD
  | EXIT
deriving DecidableEq, Repr

def SETENV_COMMAND : CStr := "setenv".toList
def UNSETENV_COMMAND : CStr := "unsetenv".toList
def CD_COMMAND : CStr := "cd".toList
def EXIT_COMMAND : CStr := "exit".toList

/-- `check_command` (kapish.c lines 66-77): each `strncmp` count is the
reserved name's length plus one, so the NUL terminator participates in the
comparison. -/
def check_command (command : CStr) : cmd_type :=
  if strncmp CD_COMMAND command 3 = 0 then .CD
  else if strncmp EXIT_COMMAND command 5 = 0 then .EXIT
  else if strncmp SETENV_COMMAND command 7 = 0 then .SETENV
  else if strncmp UNSETENV_COMMAND command 9 = 0 then .UNSETENV
  else .EXTERNAL_CMD

/-- The process-wide environment: an association list of (name, value)
pairs, as `environ` holds `NAME=value` entries. -/
abbrev Env := List (CStr × CStr)

/-- `getenv`-style lookup: first entry whose name matches. -/
def lookupEnv : Env → CStr → Option CStr
  | [], _ => none
  | (n, v) :: rest, name => if n = name then some v else lookupEnv rest name

/-- POSIX `setenv`/`unsetenv` reject an empty name or a name containing
`'='` (EINVAL) and leave the environment unchanged; kapish ignores their
return values. -/
def validEnvName (name : CStr) : Bool := !name.isEmpty && !name.contains '='

/-- Replace the first entry named `name`, or append if absent
(glibc `setenv` with overwrite = 1). -/
def replaceFirst : Env → CStr → CStr → Env
  | [], name, value => [(name, value)]
  | (n, v) :: rest, name, value =>
    if n = name then (name, value) :: rest
    else (n, v) :: replaceFirst rest name value

/-- C library `setenv(name, value, 1)` as kapish calls it. -/
def setenvImpl (env : Env) (name value : CStr) : Env :=
  if validEnvName name then replaceFirst env name value else env

/-- C library `unsetenv(name)`: removes every entry named `name`. -/
def unsetenvImpl (env : Env) (name : CStr) : Env :=
  if validEnvName name then env.filter (fun p => p.1 ≠ name) else env

/-- The observable result of one `run_command` call in the dispatching
(parent) process: the environment afterwards, the lines printed to stdout
and stderr during the call, and the returned `int` status
(1 normal / Continue, 0 exit / Terminate, negative failure / Fault). -/
structure RunResult where
  env : Env
  out : List String
  err : List String
  status : Int
deriving DecidableEq, Repr

/-- `run_command` (kapish.c lines 103-166), as observed by the process
that calls it. `forkOk` tells whether `fork()` succeeds, `execOk` whether
`execvp` can locate and execute the program. In the EXTERNAL branch the
parent's `cid` is the child's pid (> 0) when the fork succeeds, so the
parent skips both `if` bodies and returns `ret_val = 1`; the
`"Error creating new process."` line is printed by the forked child onto
the shared stderr before the parent's `waitpid` returns. The `[]` case
cannot be reached from `get_line`, which never returns an empty vector. -/
def run_command (forkOk execOk : Bool) (tokens : List CStr) (env : Env) :
    RunResult :=
  match tokens with
  | [] => { env := env, out := [], err := [], status := 1 }
  | t0 :: _ =>
    match check_command t0 with
    | .SETENV =>
      match tokens.get? 1, tokens.get? 2 with
      | some name, some value =>
        { env := setenvImpl env name value, out := [], err := [], status := 1 }
      | _, _ =>
        { env := env, out := ["Expected usage: setenv <variable> <value>"],
          err := [], status := 1 }
    | .UNSETENV =>
      match tokens.get? 1 with
      | some name =>
        { env := unsetenvImpl env name, out := [], err := [], status := 1 }
      | none =>
        { env := env, out := ["Expected usage: unsetenv <variable>"],
          err := [], status := 1 }
    | .CD =>
      match tokens.get? 1 with
      | some _ =>
        { env := env, out := [], err := [], status := 1 }
      | none =>
        { env := env, out := ["Expected usage: cd <path>"],
          err := [], status := 1 }
    | .EXIT => { env := env, out := [], err := [], status := 0 }
    | .EXTERNAL_CMD =>
      if forkOk then
        { env := env, out := [],
          err := if execOk then [] else ["Error creating new process."],
          status := 1 }
      else
        { env := env, out := [], err := ["Error forking."], status := -1 }

/-- The status the forked child's own `run_command` call ends with when
`execvp` fails: the child falls through to `ret_val = -1` and returns it
(to the child's copy of the loop). `none` means the process image was
replaced and the call never returns. -/
def run_command_child_status (execOk : Bool) : Option Int :=
  if execOk then none else some (-1)

/-- `get_line` (kapish.c lines 80-98) over a stream modelled as the list
of lines `fgets` will deliver (end-of-stream when the list is empty).
Returns the token vector (or `none`, the NULL pointer, when `fgets` hit
end-of-stream or the line tokenized to nothing) and the rest of the
stream. -/
def get_line : List CStr → Option (List CStr) × List CStr
  | [] => (none, [])
  | line :: rest =>
    let tokens := tokenize line
    (if tokens.isEmpty then none else some tokens, rest)

/-- The `.kapishrc` reading loop of `initalize` (kapish.c lines 209-221):
`get_line`, break on NULL, `run_command` with its return value discarded,
next line. Returns the final environment and, for auditing the pass, the
list of token vectors it dispatched, in order. -/
def rc_pass (forkOk execOk : Bool) : List CStr → Env → Env × List (List CStr)
  | [], env => (env, [])
  | line :: rest, env =>
    let tokens := tokenize line
    if tokens.isEmpty then (env, [])
    else
      let r := run_command forkOk execOk tokens env
      let next := rc_pass forkOk execOk rest r.env
      (next.1, tokens :: next.2)

/-- `loop` (kapish.c lines 233-257), run for at most `fuel` iterations of
the `while (program_status > 0)` loop: prompt, `get_line(stdin)`,
`continue` on NULL, else dispatch and keep the status. `some s` means the
function returned `s` within `fuel` iterations; `none` means it was still
looping. -/
def loopFuel (forkOk execOk : Bool) : Nat → List CStr → Env → Option Int
  | 0, _, _ => none
  | fuel + 1, lines, env =>
    match lines with
    | [] => loopFuel forkOk execOk fuel [] env
    | line :: rest =>
      let tokens := tokenize line
      if tokens.isEmpty then loopFuel forkOk execOk fuel rest env
      else
        let r := run_command forkOk execOk tokens env
        if r.status > 0 then loopFuel forkOk execOk fuel rest r.env
        else some r.status

/-! ### Helper lemmas -/

theorem char_toNat_inj {a b : Char} (h : a.toNat = b.toNat) : a = b := by
  have h2 := congrArg Char.ofNat h
  rwa [Char.ofNat_toNat, Char.ofNat_toNat] at h2

/-- `strncmp name cmd (name.length + 1)` includes `name`'s NUL terminator
in the comparison, so it is zero exactly on the full string `name`
(for strings with no embedded NUL byte). -/
theorem strncmp_nul_eq_zero_iff (name : CStr) :
    ∀ cmd : CStr, (∀ c ∈ name, c.toNat ≠ 0) → (∀ c ∈ cmd, c.toNat ≠ 0) →
      (strncmp name cmd (name.length + 1) = 0 ↔ cmd = name) := by
  induction name with
  | nil =>
    intro cmd _ hc
    cases cmd with
    | nil => simp [strncmp]
    | cons c cs =>
      have hc0 : c.toNat ≠ 0 := hc c (List.mem_cons_self c cs)
      simp only [strncmp, List.length_nil]
      constructor
      · intro h0; exfalso; omega
      · intro h0; exact absurd h0 (List.cons_ne_nil c cs)
  | cons a as ih =>
    intro cmd hn hc
    cases cmd with
    | nil =>
      have ha0 : a.toNat ≠ 0 := hn a (List.mem_cons_self a as)
      simp only [strncmp, List.length_cons]
      constructor
      · intro h0; exfalso; omega
      · intro h0; exact absurd h0.symm (List.cons_ne_nil a as)
    | cons c cs =>
      have hn' : ∀ x ∈ as, x.toNat ≠ 0 := fun x hx => hn x (List.mem_cons_of_mem a hx)
      have hc' : ∀ x ∈ cs, x.toNat ≠ 0 := fun x hx => hc x (List.mem_cons_of_mem c hx)
      simp only [strncmp, List.length_cons]
      by_cases hac : a = c
      · subst hac
        rw [if_pos rfl, ih cs hn' hc']
        simp
      · rw [if_neg hac]
        constructor
        · intro h0
          exfalso
          have : a.toNat = c.toNat := by omega
          exact hac (char_toNat_inj this)
        · intro h0
          injection h0 with h1 _
          exact absurd h1.symm hac

/-- Any first token that is not exactly one of the four reserved names
falls through every `strncmp` test in `check_command`. -/
theorem check_command_eq_external (cmd : CStr) (hc : ∀ c ∈ cmd, c.toNat ≠ 0)
    (h1 : cmd ≠ CD_COMMAND) (h2 : cmd ≠ EXIT_COMMAND)
    (h3 : cmd ≠ SETENV_COMMAND) (h4 : cmd ≠ UNSETENV_COMMAND) :
    check_command cmd = cmd_type.EXTERNAL_CMD := by
  have e1 := strncmp_nul_eq_zero_iff CD_COMMAND cmd (by decide) hc
  have e2 := strncmp_nul_eq_zero_iff EXIT_COMMAND cmd (by decide) hc
  have e3 := strncmp_nul_eq_zero_iff SETENV_COMMAND cmd (by decide) hc
  have e4 := strncmp_nul_eq_zero_iff UNSETENV_COMMAND cmd (by decide) hc
  have n1 : ¬ strncmp CD_COMMAND cmd 3 = 0 := fun h0 => h1 (e1.mp h0)
  have n2 : ¬ strncmp EXIT_COMMAND cmd 5 = 0 := fun h0 => h2 (e2.mp h0)
  have n3 : ¬ strncmp SETENV_COMMAND cmd 7 = 0 := fun h0 => h3 (e3.mp h0)
  have n4 : ¬ strncmp UNSETENV_COMMAND cmd 9 = 0 := fun h0 => h4 (e4.mp h0)
  unfold check_command
  rw [if_neg n1, if_neg n2, if_neg n3, if_neg n4]

/-! ### Claims -/

/-- C1 (code bug): the spec says an External dispatch whose program image
cannot be located/executed returns `Fault` (negative) to its caller. In the
code, `ret_val = -1` after a failed `execvp` is assigned in the forked
child, not in the dispatching parent: the parent's `run_command` skips both
`if` bodies (its `cid` is the child's positive pid) and returns 1
(Continue), so the session carries on. Only a failed `fork()` itself
produces the documented negative status. The child's own call does end
with -1, but that value never reaches the session that dispatched. -/
theorem run_command_missing_program_status :
    (run_command true false ["doesnotexist".toList] []).status = 1 ∧
    (run_command true false ["doesnotexist".toList] []).err =
      ["Error creating new process."] ∧
    run_command_child_status false = some (-1) ∧
    (run_command false true ["doesnotexist".toList] []).status = -1 :=
  ⟨rfl, rfl, rfl, rfl⟩

/-- C2: command classification is exact, case-sensitive whole-token
matching: each `strncmp` in `check_command` compares `strlen(name) + 1`
characters, so the reserved name's NUL terminator participates and a
proper extension such as `"cdx"` does not match. `"exit"` classifies as
`EXIT`, `"setenv"` as `SETENV`, `"cdx"` as external, and any token (with
no embedded NUL byte) different from all four reserved names classifies
as external. -/
theorem check_command_exact_match :
    check_command ("exit".toList) = cmd_type.EXIT ∧
    check_command ("setenv".toList) = cmd_type.SETENV ∧
    check_command ("cdx".toList) = cmd_type.EXTERNAL_CMD ∧
    (∀ cmd : CStr, (∀ c ∈ cmd, c.toNat ≠ 0) →
      cmd ≠ "setenv".toList → cmd ≠ "unsetenv".toList →
      cmd ≠ "cd".toList → cmd ≠ "exit".toList →
      check_command cmd = cmd_type.EXTERNAL_CMD) :=
  ⟨rfl, rfl, rfl, fun cmd hc h3 h4 h1 h2 =>
    check_command_eq_external cmd hc h1 h2 h3 h4⟩

/-- Witness for C2: `"ls"` is none of the reserved names and classifies
as external. -/
theorem check_command_exact_match_witness :
    ((∀ c ∈ ("ls".toList : CStr), c.toNat ≠ 0) ∧
      ("ls".toList : CStr) ≠ "setenv".toList ∧
      ("ls".toList : CStr) ≠ "unsetenv".toList ∧
      ("ls".toList : CStr) ≠ "cd".toList ∧
      ("ls".toList : CStr) ≠ "exit".toList) ∧
    check_command ("ls".toList) = cmd_type.EXTERNAL_CMD :=
  ⟨⟨by decide, by decide, by decide, by decide, by decide⟩,
    check_command_exact_match.2.2.2 ("ls".toList)
      (by decide) (by decide) (by decide) (by decide) (by decide)⟩

/-- Every token the scan produces is a non-empty run of non-delimiter
characters (invariant: the same holds of a partially accumulated token). -/
theorem tokenize_go_tokens (l : CStr) :
    ∀ acc : Option (List Char),
      (∀ a, acc = some a → a ≠ [] ∧ ∀ c ∈ a, isDelim c = false) →
      ∀ t ∈ tokenize_go acc l, t ≠ [] ∧ ∀ c ∈ t, isDelim c = false := by
  induction l with
  | nil =>
    intro acc hacc t ht
    cases acc with
    | none => simp [tokenize_go] at ht
    | some a =>
      simp only [tokenize_go, List.mem_singleton] at ht
      subst ht
      obtain ⟨hne, hchars⟩ := hacc a rfl
      refine ⟨by simpa using hne, fun c hc => hchars c ?_⟩
      exact List.mem_reverse.mp hc
  | cons c cs ih =>
    intro acc hacc t ht
    cases acc with
    | none =>
      by_cases hd : isDelim c = true
      · rw [show tokenize_go none (c :: cs) = tokenize_go none cs by
          simp [tokenize_go, hd]] at ht
        exact ih none hacc t ht
      · rw [show tokenize_go none (c :: cs) = tokenize_go (some [c]) cs by
          simp [tokenize_go, hd]] at ht
        refine ih (some [c]) ?_ t ht
        intro a ha
        injection ha with ha
        subst ha
        simp only [Bool.not_eq_true] at hd
        exact ⟨List.cons_ne_nil c [], by simpa using hd⟩
    | some a =>
      obtain ⟨hne, hchars⟩ := hacc a rfl
      by_cases hd : isDelim c = true
      · rw [show tokenize_go (some a) (c :: cs) =
            a.reverse :: tokenize_go none cs by simp [tokenize_go, hd]] at ht
        rcases List.mem_cons.mp ht with h | h
        · subst h
          refine ⟨by simpa using hne, fun x hx => hchars x ?_⟩
          exact List.mem_reverse.mp hx
        · exact ih none (by intro a0 ha0; cases ha0) t h
      · rw [show tokenize_go (some a) (c :: cs) =
            tokenize_go (some (c :: a)) cs by simp [tokenize_go, hd]] at ht
        refine ih (some (c :: a)) ?_ t ht
        intro a0 ha0
        injection ha0 with ha0
        subst ha0
        simp only [Bool.not_eq_true] at hd
        constructor
        · exact List.cons_ne_nil c a
        · intro x hx
          rcases List.mem_cons.mp hx with h | h
          · subst h; exact hd
          · exact hchars x h

/-- A line consisting only of delimiter characters tokenizes to nothing. -/
theorem tokenize_all_delim (l : CStr) (h : ∀ c ∈ l, isDelim c = true) :
    tokenize l = [] := by
  unfold tokenize
  induction l with
  | nil => rfl
  | cons c cs ih =>
    have hd : isDelim c = true := h c (List.mem_cons_self c cs)
    rw [show tokenize_go none (c :: cs) = tokenize_go none cs by
      simp [tokenize_go, hd]]
    exact ih fun x hx => h x (List.mem_cons_of_mem c hx)

/-- C8: the tokenizer splits on runs of spaces and newlines; the newline
(or a space) is never part of a token. `"setenv FOO bar\n"` yields exactly
`["setenv", "FOO", "bar"]`; the empty line, `"\n"` and `"   \n"` — and in
general any line made only of delimiters — yield the empty sequence. -/
theorem tokenize_splits_on_delims :
    tokenize ("setenv FOO bar\n".toList) =
      ["setenv".toList, "FOO".toList, "bar".toList] ∧
    tokenize ("".toList) = [] ∧
    tokenize ("\n".toList) = [] ∧
    tokenize ("   \n".toList) = [] ∧
    (∀ l : CStr, (∀ c ∈ l, isDelim c = true) → tokenize l = []) ∧
    (∀ l : CStr, ∀ t ∈ tokenize l, t ≠ [] ∧ ∀ c ∈ t, isDelim c = false) :=
  ⟨rfl, rfl, rfl, rfl, tokenize_all_delim,
    fun l => tokenize_go_tokens l none (by intro a ha; cases ha)⟩

/-- Witness for C8: the all-delimiter clause at `" \n"`, and the
token-shape clause at the token `"a"` of the line `"a b"`. -/
theorem tokenize_splits_on_delims_witness :
    ((∀ c ∈ (" \n".toList : CStr), isDelim c = true) ∧
      tokenize (" \n".toList) = []) ∧
    ((['a'] ∈ tokenize ("a b".toList)) ∧
      (['a'] ≠ [] ∧ ∀ c ∈ ['a'], isDelim c = false)) :=
  ⟨⟨by decide, tokenize_splits_on_delims.2.2.2.2.1 (" \n".toList) (by decide)⟩,
    ⟨by decide, tokenize_splits_on_delims.2.2.2.2.2 ("a b".toList) ['a']
      (by decide)⟩⟩

/-- A line of 65 one-character tokens. -/
def line65 : CStr := (List.replicate 65 ("a ".toList)).flatten

/-- C7 (code bug): `tokenize` has no bound check and no error branch: it
writes token `i` to `tokens[token_i]` for every `i` below the token count.
`line65` produces 65 tokens, so the loop writes `tokens[64]`, one past the
64-entry (`TOKENS_SIZE`) heap array — a silent out-of-bounds write, with
no dynamic growth and no `TooManyTokens`-style error. (Even at exactly 64
tokens the array is left with no terminating NULL entry, so every reader
of the array then runs past its end.) -/
theorem tokenize_overflow_line_out_of_bounds :
    (tokenize line65).length = 65 ∧ TOKENS_SIZE < (tokenize line65).length := by
  constructor
  · rfl
  · decide

/-- C4 (code bug): the spec says the session exits with code 0 at natural
end of input. In the code, `get_line` returns NULL at end-of-stream and the
loop's `if (tokens == NULL) continue;` goes straight back to
`printf("? ")` and another `fgets` — which fails again. Once the input
stream is exhausted the loop never returns, for any amount of fuel: the
process spins forever re-printing the prompt instead of exiting. -/
theorem loop_eof_never_returns (forkOk execOk : Bool) :
    ∀ (fuel : Nat) (env : Env), loopFuel forkOk execOk fuel [] env = none := by
  intro fuel
  induction fuel with
  | zero => intro env; rfl
  | succ n ih => intro env; exact ih env

/-- C5 counterexample: the claim says a blank line is signalled as
"no command", a signal distinct from end-of-stream's "no more input". In
the code both are the same NULL return: `get_line` on a stream whose next
line is `"   \n"` produces exactly the signal it produces on an exhausted
stream. -/
theorem get_line_blank_eq_eof_signal :
    (get_line ["   \n".toList]).1 = (get_line []).1 ∧
    (get_line []).1 = none :=
  ⟨rfl, rfl⟩

/-- C5 (amended): `get_line` signals a successfully read blank line and
end-of-stream identically — both return NULL (`none`). A caller cannot
tell the two apart from the return value; the interactive loop treats the
shared signal as "skip and ask again" (hence never detects end-of-stream,
see C4) while the startup pass treats it as "stop". -/
theorem get_line_single_empty_signal (line : CStr) (rest : List CStr)
    (h : ∀ c ∈ line, isDelim c = true) :
    (get_line (line :: rest)).1 = none ∧ (get_line []).1 = none := by
  constructor
  · simp [get_line, tokenize_all_delim line h]
  · rfl

/-- Witness for C5 (amended) at the blank line `"   \n"`. -/
theorem get_line_single_empty_signal_witness :
    (∀ c ∈ ("   \n".toList : CStr), isDelim c = true) ∧
    ((get_line ["   \n".toList, "exit\n".toList]).1 = none ∧
      (get_line []).1 = none) :=
  ⟨by decide,
    get_line_single_empty_signal ("   \n".toList) ["exit\n".toList]
      (by decide)⟩

/-- C6 counterexample: the claim says a `Terminate` outcome (an `exit`
line) stops the startup pass early with no further lines dispatched. In
`initalize` the return value of `run_command` is discarded, so with a
`.kapishrc` of `exit` then `setenv A 1`, the pass dispatches both lines
and the second one mutates the environment. -/
theorem rc_pass_exit_line_does_not_stop :
    (rc_pass true true ["exit\n".toList, "setenv A 1\n".toList] []).2 =
      [["exit".toList], ["setenv".toList, "A".toList, "1".toList]] ∧
    lookupEnv (rc_pass true true ["exit\n".toList, "setenv A 1\n".toList] []).1
      ("A".toList) = some ("1".toList) :=
  ⟨rfl, rfl⟩

/-- C6 (amended): the startup pass ignores dispatch outcomes entirely —
neither a `Fault` nor a `Terminate` outcome stops it. It dispatches
exactly the lines before the first line that tokenizes to nothing (a blank
line or end of file), whatever statuses `run_command` returns along the
way (`forkOk` and `execOk` are arbitrary, so the dispatched prefix is the
same even when external commands fault). -/
theorem rc_pass_outcome_independent (forkOk execOk : Bool)
    (lines : List CStr) (env : Env) :
    (rc_pass forkOk execOk lines env).2 =
      (lines.takeWhile (fun l => !(tokenize l).isEmpty)).map tokenize := by
  induction lines generalizing env with
  | nil => rfl
  | cons l rest ih =>
    by_cases he : (tokenize l).isEmpty
    · simp [rc_pass, he, List.takeWhile_cons]
    · simp [rc_pass, he, List.takeWhile_cons, ih]

/-- After `replaceFirst`, looking the name up finds the new value. -/
theorem lookup_replaceFirst (env : Env) (name value : CStr) :
    lookupEnv (replaceFirst env name value) name = some value := by
  induction env with
  | nil => simp [replaceFirst, lookupEnv]
  | cons p rest ih =>
    obtain ⟨n, v⟩ := p
    by_cases h : n = name
    · subst h; simp [replaceFirst, lookupEnv]
    · simp [replaceFirst, lookupEnv, h, ih]

/-- C3 counterexample: the claim says any argument count other than
exactly 2 produces a usage message and no mutation. With three argument
tokens (`setenv A B C`) the code's check `tokens[1] == NULL ||
tokens[2] == NULL` passes, so it sets `A=B` (mutating the environment),
prints nothing, and returns Continue — the extra token is ignored, not
rejected. -/
theorem run_command_setenv_extra_args_mutates :
    run_command true true
        ["setenv".toList, "A".toList, "B".toList, "C".toList] [] =
      { env := [("A".toList, "B".toList)], out := [], err := [],
        status := 1 } ∧
    (["A".toList, "B".toList, "C".toList] : List CStr).length ≠ 2 :=
  ⟨rfl, by decide⟩

/-- C3 (amended): for a token sequence classified `SETENV`: with fewer
than 2 argument tokens the dispatcher prints the usage message and
returns Continue without mutating the environment; with 2 or more it sets
the variable named by the first argument to the second argument
(overwriting any existing value — the lookup afterwards finds the new
value), ignores any extra tokens, and returns Continue. -/
theorem run_command_setenv_arity (forkOk execOk : Bool) (args : List CStr)
    (env : Env) :
    (args.length < 2 →
      run_command forkOk execOk ("setenv".toList :: args) env =
        { env := env, out := ["Expected usage: setenv <variable> <value>"],
          err := [], status := 1 }) ∧
    (∀ name value rest2, args = name :: value :: rest2 →
      run_command forkOk execOk ("setenv".toList :: args) env =
        { env := setenvImpl env name value, out := [], err := [],
          status := 1 }) ∧
    (∀ name value rest2, args = name :: value :: rest2 →
      validEnvName name = true →
      lookupEnv (run_command forkOk execOk ("setenv".toList :: args) env).env
        name = some value) := by
  refine ⟨?_, ?_, ?_⟩
  · intro h
    match args with
    | [] => rfl
    | [a] => rfl
    | a :: b :: rest2 => simp only [List.length_cons] at h; omega
  · intro name value rest2 h
    subst h
    rfl
  · intro name value rest2 h hv
    subst h
    show lookupEnv (setenvImpl env name value) name = some value
    unfold setenvImpl
    rw [if_pos hv]
    exact lookup_replaceFirst env name value

/-- Witness for C3 (amended): one argument prints usage and mutates
nothing; two arguments set the variable and the new value is looked up. -/
theorem run_command_setenv_arity_witness :
    ((["A".toList] : List CStr).length < 2 ∧
      run_command true true ["setenv".toList, "A".toList] [] =
        { env := [], out := ["Expected usage: setenv <variable> <value>"],
          err := [], status := 1 }) ∧
    (run_command true true ["setenv".toList, "A".toList, "B".toList] [] =
      { env := setenvImpl [] ("A".toList) ("B".toList), out := [], err := [],
        status := 1 }) ∧
    (validEnvName ("A".toList) = true ∧
      lookupEnv (run_command true true
          ["setenv".toList, "A".toList, "B".toList] []).env ("A".toList) =
        some ("B".toList)) :=
  ⟨⟨by decide,
      (run_command_setenv_arity true true ["A".toList] []).1 (by decide)⟩,
    (run_command_setenv_arity true true ["A".toList, "B".toList] []).2.1
      ("A".toList) ("B".toList) [] rfl,
    by decide,
    (run_command_setenv_arity true true ["A".toList, "B".toList] []).2.2
      ("A".toList) ("B".toList) [] rfl (by decide)⟩

/-- Removing every entry named `X` is a no-op when none exists. -/
theorem filter_ne_eq_self (env : Env) (X : CStr)
    (h : lookupEnv env X = none) :
    env.filter (fun p => p.1 ≠ X) = env := by
  induction env with
  | nil => rfl
  | cons p rest ih =>
    obtain ⟨n, v⟩ := p
    by_cases hn : n = X
    · subst hn; simp [lookupEnv] at h
    · simp only [lookupEnv, if_neg hn] at h
      rw [List.filter_cons, if_pos (decide_eq_true hn), ih h]

/-- Removing every entry named `X` twice is the same as doing it once. -/
theorem filter_ne_idem (env : Env) (X : CStr) :
    (env.filter (fun p => p.1 ≠ X)).filter (fun p => p.1 ≠ X) =
      env.filter (fun p => p.1 ≠ X) := by
  induction env with
  | nil => rfl
  | cons p rest ih =>
    by_cases hn : p.1 = X
    · simp [List.filter_cons, hn, ih]
    · simp [List.filter_cons, hn, ih]

theorem unsetenvImpl_absent (env : Env) (X : CStr)
    (h : lookupEnv env X = none) : unsetenvImpl env X = env := by
  unfold unsetenvImpl
  split_ifs with hv
  · exact filter_ne_eq_self env X h
  · rfl

theorem unsetenvImpl_idem (env : Env) (X : CStr) :
    unsetenvImpl (unsetenvImpl env X) X = unsetenvImpl env X := by
  unfold unsetenvImpl
  split_ifs with hv
  · exact filter_ne_idem env X
  · rfl

/-- C9: dispatching `unsetenv X` returns Continue (1), prints nothing on
either stream, leaves the environment identical when `X` is already
absent, and repeating it yields the same resulting environment as
applying it once. -/
theorem unsetenv_idempotent (forkOk execOk : Bool) (X : CStr) (env : Env) :
    (run_command forkOk execOk ["unsetenv".toList, X] env).status = 1 ∧
    (run_command forkOk execOk ["unsetenv".toList, X] env).out = [] ∧
    (run_command forkOk execOk ["unsetenv".toList, X] env).err = [] ∧
    (lookupEnv env X = none →
      (run_command forkOk execOk ["unsetenv".toList, X] env).env = env) ∧
    (run_command forkOk execOk ["unsetenv".toList, X]
        (run_command forkOk execOk ["unsetenv".toList, X] env).env).env =
      (run_command forkOk execOk ["unsetenv".toList, X] env).env :=
  ⟨rfl, rfl, rfl, fun h => unsetenvImpl_absent env X h,
    unsetenvImpl_idem env X⟩

/-- Witness for C9: `unsetenv X` on an environment not containing `X`
leaves it untouched. -/
theorem unsetenv_idempotent_witness :
    lookupEnv [("Y".toList, "1".toList)] ("X".toList) = none ∧
    (run_command true true ["unsetenv".toList, "X".toList]
        [("Y".toList, "1".toList)]).env = [("Y".toList, "1".toList)] :=
  ⟨by decide,
    (unsetenv_idempotent true true ("X".toList)
      [("Y".toList, "1".toList)]).2.2.2.1 (by decide)⟩

theorem list_get?_append_lt {α : Type} :
    ∀ (l₁ l₂ : List α) (i : Nat), i < l₁.length →
      (l₁ ++ l₂).get? i = l₁.get? i
  | [], _, i, h => absurd h (by simp)
  | _ :: _, _, 0, _ => rfl
  | _ :: l₁, l₂, i + 1, h =>
    list_get?_append_lt l₁ l₂ i (Nat.lt_of_succ_lt_succ h)

theorem list_get?_append_ge {α : Type} :
    ∀ (l₁ l₂ : List α) (i : Nat), l₁.length ≤ i →
      (l₁ ++ l₂).get? i = l₂.get? (i - l₁.length)
  | [], _, _, _ => by simp
  | _ :: _, _, 0, h => absurd h (by simp)
  | _ :: l₁, l₂, i + 1, h => by
    have hrec := list_get?_append_ge l₁ l₂ i (Nat.le_of_succ_le_succ h)
    simpa [Nat.succ_sub_succ] using hrec

theorem list_get?_map {α β : Type} (f : α → β) :
    ∀ (l : List α) (i : Nat), (l.map f).get? i = (l.get? i).map f
  | [], _ => by simp
  | _ :: _, 0 => rfl
  | _ :: l, i + 1 => list_get?_map f l i

theorem list_get?_replicate {α : Type} (x : α) :
    ∀ (k i : Nat), i < k → (List.replicate k x).get? i = some x
  | 0, i, h => absurd h (Nat.not_lt_zero i)
  | _ + 1, 0, _ => rfl
  | k + 1, i + 1, h => list_get?_replicate x k i (Nat.lt_of_succ_lt_succ h)

theorem list_get?_none {α : Type} :
    ∀ (l : List α) (i : Nat), l.length ≤ i → l.get? i = none
  | [], _, _ => rfl
  | _ :: _, 0, h => absurd h (by simp)
  | _ :: l, i + 1, h => list_get?_none l i (Nat.le_of_succ_le_succ h)

theorem list_get?_isSome {α : Type} :
    ∀ (l : List α) (i : Nat), i < l.length → ∃ a, l.get? i = some a
  | [], i, h => absurd h (Nat.not_lt_zero i)
  | a :: _, 0, _ => ⟨a, rfl⟩
  | _ :: l, i + 1, h => list_get?_isSome l i (Nat.lt_of_succ_lt_succ h)

/-- As long as the token count is below `TOKENS_SIZE`, entry `i` of the
token array is the `i`-th token for `i` below the count and the NULL left
by `memset` for every later in-bounds index. -/
theorem tokens_array_get (line : CStr)
    (hlt : (tokenize line).length < TOKENS_SIZE) (i : Nat)
    (hi : i < TOKENS_SIZE) :
    (tokens_array line).get? i = some ((tokenize line).get? i) := by
  unfold tokens_array
  by_cases h : i < (tokenize line).length
  · rw [list_get?_append_lt _ _ i (by simpa using h), list_get?_map]
    obtain ⟨t, ht⟩ := list_get?_isSome (tokenize line) i h
    rw [ht]
    rfl
  · push_neg at h
    rw [list_get?_append_ge _ _ i (by simpa using h), List.length_map,
      list_get?_replicate _ _ _ (by omega), list_get?_none _ _ h]

/-- The prefix of non-NULL entries of the padded array is exactly the
token sequence. -/
theorem takeWhile_isSome_padded (ts : List CStr) (k : Nat) (hk : 0 < k) :
    (ts.map some ++ List.replicate k none).takeWhile (fun o => o.isSome) =
      ts.map some := by
  induction ts with
  | nil =>
    simp only [List.map_nil, List.nil_append]
    cases k with
    | zero => omega
    | succ k0 => rfl
  | cons t ts ih =>
    simp [List.takeWhile_cons, ih]

/-- C10: a non-NULL token vector returned by `get_line` is the line's
token sequence; it is non-empty, every token in it is a non-empty string,
and — for lines within the 63-token capacity — the underlying 64-entry
array holds exactly the tokens at indices below the count, is
NULL-terminated immediately after the last token, and its non-NULL prefix
(what `cleanup` walks and frees) is exactly the token sequence. This is
the precondition `run_command` relies on to read `tokens[0..2]` and
`cleanup` relies on to free entries up to the first NULL. -/
theorem get_line_token_array_invariant (line : CStr) (rest : List CStr)
    (ts : List CStr) (h : (get_line (line :: rest)).1 = some ts) :
    ts = tokenize line ∧ ts ≠ [] ∧ (∀ t ∈ ts, t ≠ []) ∧
    (ts.length < TOKENS_SIZE →
      (∀ i : Nat, i < TOKENS_SIZE →
        (tokens_array line).get? i = some (ts.get? i)) ∧
      (tokens_array line).get? ts.length = some none ∧
      (tokens_array line).takeWhile (fun o => o.isSome) = ts.map some) := by
  have h' : (if (tokenize line).isEmpty = true then (none : Option (List CStr))
      else some (tokenize line)) = some ts := h
  by_cases he : (tokenize line).isEmpty = true
  · rw [if_pos he] at h'
    exact absurd h' (by simp)
  · rw [if_neg he] at h'
    have hts : ts = tokenize line := (Option.some.injEq _ _ ▸ h').symm
    subst hts
    have hne : tokenize line ≠ [] := by
      intro h0
      rw [h0] at he
      exact he rfl
    refine ⟨rfl, hne, ?_, ?_⟩
    · intro t ht
      exact (tokenize_go_tokens line none (by intro a ha; cases ha) t ht).1
    · intro hlt
      refine ⟨fun i hi => tokens_array_get line hlt i hi, ?_, ?_⟩
      · rw [tokens_array_get line hlt (tokenize line).length hlt,
          list_get?_none (tokenize line) (tokenize line).length (Nat.le_refl _)]
      · unfold tokens_array
        exact takeWhile_isSome_padded (tokenize line)
          (TOKENS_SIZE - (tokenize line).length) (by omega)

/-- Witness for C10 at the line `"ab c\n"`, whose token vector is
`["ab", "c"]`. -/
theorem get_line_token_array_invariant_witness :
    ((get_line ["ab c\n".toList]).1 = some ["ab".toList, "c".toList]) ∧
    (["ab".toList, "c".toList] = tokenize ("ab c\n".toList) ∧
      (["ab".toList, "c".toList] : List CStr) ≠ [] ∧
      (∀ t ∈ (["ab".toList, "c".toList] : List CStr), t ≠ []) ∧
      ((["ab".toList, "c".toList] : List CStr).length < TOKENS_SIZE →
        (∀ i : Nat, i < TOKENS_SIZE →
          (tokens_array ("ab c\n".toList)).get? i =
            some ((["ab".toList, "c".toList] : List CStr).get? i)) ∧
        (tokens_array ("ab c\n".toList)).get?
            (["ab".toList, "c".toList] : List CStr).length = some none ∧
        (tokens_array ("ab c\n".toList)).takeWhile (fun o => o.isSome) =
          (["ab".toList, "c".toList] : List CStr).map some)) :=
  ⟨rfl, get_line_token_array_invariant ("ab c\n".toList) []
    ["ab".toList, "c".toList] rfl⟩
